import Mathlib

/-!
# Verification of the UMA protocol core (`uma/uma.go`) and its transport helper

This file shallowly embeds the functions of `uma/uma.go` (and the pieces of
the protocol data model they rely on) in Lean 4 and proves properties about
them.  Machine integers are modelled as `Nat`/`Int`, Go byte slices as
`List Nat` (each element a byte value), Go strings as `String`, and fallible
Go functions as `Except String _` mirroring Go's `(value, error)` returns.
Side effects (the public-key cache, HTTP fetches, the invoice creator, the
CSPRNG, the wall clock) are made explicit: random values and timestamps are
passed as arguments, collaborator capabilities are passed as functions, and
performed effects (network fetches, invoice-creator calls, cache updates) are
returned as explicit traces.

External cryptographic libraries (secp256k1 ECDSA, ECIES) are not part of the
repository; they are modelled by executable stand-ins that preserve exactly
the structure the code relies on (deterministic digests, serialize/parse
round-trips, signature/key matching), or passed as function parameters where
only their success/failure shape matters.
-/

namespace UmaSpec


/-! ## Decimal encoding and parsing (models of `strconv.FormatInt`/`FormatUint`
and `strconv.ParseInt`) -/

/-- The character for a single decimal digit (`0`–`9`). -/
def decDigit (n : Nat) : Char := Char.ofNat (48 + n)

/-- The numeric value of a decimal digit character, if it is one. -/
def decDigitVal (c : Char) : Option Nat :=
  if '0' ≤ c ∧ c ≤ '9' then some (c.toNat - 48) else none

/-- The decimal digit list of a natural number, most significant digit first.
Model of the digit production inside `strconv.FormatInt(…, 10)`. -/
def natToDigits (n : Nat) : List Char :=
  if _h : n < 10 then [decDigit n]
  else natToDigits (n / 10) ++ [decDigit (n % 10)]
decreasing_by exact Nat.div_lt_self (by omega) (by omega)

/-- Decimal string of a natural number (model of `strconv.FormatUint(n, 10)`). -/
def natToDec (n : Nat) : String := String.mk (natToDigits n)

/-- Decimal string of an integer (model of `strconv.FormatInt(i, 10)`). -/
def intToDec (i : Int) : String :=
  if i < 0 then "-" ++ natToDec i.natAbs else natToDec i.natAbs

/-- Digit-accumulating loop of the decimal parser. -/
def parseDigitsGo (acc : Nat) : List Char → Option Nat
  | [] => some acc
  | c :: cs =>
    match decDigitVal c with
    | some d => parseDigitsGo (acc * 10 + d) cs
    | none => none

/-- Parse a non-empty all-digit character list as a natural number. -/
def parseDigits (l : List Char) : Option Nat :=
  match l with
  | [] => none
  | _ => parseDigitsGo 0 l

/-- Decimal decoding of a string (used to reason about nonce strings). -/
def decToNat (s : String) : Option Nat := parseDigits s.data

/-- Model of Go's `strconv.ParseInt(s, 10, 64)`: an optional sign followed by
at least one decimal digit, with the value confined to the signed 64-bit
range; `none` models the returned error. -/
def parseInt64Chars : List Char → Option Int
  | [] => none
  | c :: rest =>
    if c = '+' then
      (parseDigits rest).bind fun n =>
        if n ≤ 9223372036854775807 then some (n : Int) else none
    else if c = '-' then
      (parseDigits rest).bind fun n =>
        if n ≤ 9223372036854775808 then some (-(n : Int)) else none
    else
      (parseDigits (c :: rest)).bind fun n =>
        if n ≤ 9223372036854775807 then some (n : Int) else none

/-- Model of Go's `strconv.ParseInt(s, 10, 64)` on a string. -/
def parseInt64 (s : String) : Option Int := parseInt64Chars s.data

/-! ## Character-splitting and joining (models of `strings.Split` with a
one-character separator and `strings.Join`) -/

/-- Split a character list on a separator character; mirrors Go's
`strings.Split` for a single-character separator (always returns at least one
piece, empty pieces preserved). -/
def splitCh (sep : Char) : List Char → List (List Char)
  | [] => [[]]
  | c :: cs =>
    if c = sep then [] :: splitCh sep cs
    else
      match splitCh sep cs with
      | [] => [[c]]
      | h :: t => (c :: h) :: t

/-- String-level wrapper of `splitCh`. -/
def goSplit (sep : Char) (s : String) : List String :=
  (splitCh sep s.data).map String.mk

/-- Model of Go's `strings.Join`. -/
def goJoin : List String → String → String
  | [], _ => ""
  | [x], _ => x
  | x :: y :: xs, sep => x ++ sep ++ goJoin (y :: xs) sep

/-! ## Hex encoding (model of `encoding/hex`) -/

/-- The lowercase hex digit character for a value below 16. -/
def hexDig (n : Nat) : Char :=
  if n < 10 then Char.ofNat (48 + n) else Char.ofNat (87 + n)

/-- The value of a lowercase hex digit character, if it is one. -/
def hexVal (c : Char) : Option Nat :=
  if '0' ≤ c ∧ c ≤ '9' then some (c.toNat - 48)
  else if 'a' ≤ c ∧ c ≤ 'f' then some (c.toNat - 87)
  else none

/-- Character sequence of the hex encoding of a byte list. -/
def hexChars : List Nat → List Char
  | [] => []
  | b :: bs => hexDig (b / 16) :: hexDig (b % 16) :: hexChars bs

/-- Model of Go's `hex.EncodeToString`. -/
def hexEncode (bs : List Nat) : String := String.mk (hexChars bs)

/-- Pairwise decoding loop of `hex.DecodeString`; the error strings model
Go's `hex.InvalidByteError` and `hex.ErrLength`. -/
def hexDecodeChars : List Char → Except String (List Nat)
  | [] => .ok []
  | [_] => .error "encoding/hex: odd length hex string"
  | a :: b :: rest =>
    match hexVal a, hexVal b with
    | some x, some y =>
      match hexDecodeChars rest with
      | .ok bs => .ok ((16 * x + y) :: bs)
      | .error e => .error e
    | _, _ => .error "encoding/hex: invalid byte"

/-- Model of Go's `hex.DecodeString`. -/
def hexDecode (s : String) : Except String (List Nat) := hexDecodeChars s.data

/-! ## Model of the external signature library
(`decred secp256k1` / `ecdsa`, used by `signPayload` and `verifySignature`)

The library is a dependency, not repository code.  It is modelled by an
executable stand-in that preserves the structure the repository relies on:
a deterministic digest, a DER serialize/parse round-trip, public-key parsing
that rejects malformed encodings, and verification that succeeds exactly when
the signature was produced over the same digest by the private key matching
the public key. -/

/-- Deterministic stand-in for `sha256.Sum256`; only determinism (equal
payloads yield equal digests) and the byte range of the output are relied on. -/
def sha256Model (l : List Nat) : List Nat :=
  [(l.foldl (fun a c => 2 * a + c + 1) 7) % 256]

/-- Modelled parsed ECDSA signature: records the digest it signs and the
public key of its signer. -/
structure ModSig where
  payloadHash : List Nat
  signerPub : List Nat
deriving DecidableEq, Repr

/-- Modelled DER serialization of a signature (the byte form that gets
hex-encoded on the wire). -/
def derSerialize (m : ModSig) : List Nat :=
  m.payloadHash.length :: (m.payloadHash ++ m.signerPub)

/-- Modelled `ecdsa.ParseDERSignature`: rejects malformed byte strings. -/
def derParse (l : List Nat) : Except String ModSig :=
  match l with
  | [] => .error "malformed DER signature"
  | n :: rest =>
    if n ≤ rest.length then .ok ⟨rest.take n, rest.drop n⟩
    else .error "malformed DER signature"

/-- Modelled compressed public key of the private key `k` (the key
`secp256k1.PrivKeyFromBytes(k).PubKey()` would serialize). -/
def pubOf (k : Nat) : List Nat := [2, k % 256]

/-- Modelled `secp256k1.ParsePubKey`: accepts byte strings with a valid
SEC-1 prefix byte, rejects everything else. -/
def parsePubKeyModel (l : List Nat) : Except String (List Nat) :=
  match l with
  | [] => .error "invalid public key"
  | c :: _ => if c = 2 ∨ c = 3 ∨ c = 4 then .ok l else .error "invalid public key"

/-- Modelled `Signature.Verify`: true exactly when the signature carries the
same digest and was made by the holder of the given public key. -/
def verifyModelBool (hash : List Nat) (m : ModSig) (pub : List Nat) : Bool :=
  if m.payloadHash = hash ∧ m.signerPub = pub then true else false

/-- Byte view of a Go string (`[]byte(s)` modelled at the code-point level). -/
def strToBytes (s : String) : List Nat := s.data.map Char.toNat

/-! ## `uma.go`: signing and verification -/

/-- Embedding of `signPayload` (uma.go:82–94): hash the payload, sign with
the private key, hex-encode the DER signature.  The only error path in the
source is a CSPRNG read failure inside the library `Sign` call, which the
model treats as absent. -/
def signPayload (payload : List Nat) (privateKey : Nat) : String :=
  hexEncode (derSerialize ⟨sha256Model payload, pubOf privateKey⟩)

/-- Embedding of `verifySignature` (uma.go:114–136): hex-decode the
signature, parse the public key, parse the DER signature, verify; a failed
verification is the distinct error `invalid uma signature`. -/
def verifySignature (hashedPayload : List Nat) (signature : String)
    (otherVaspPubKey : List Nat) : Except String Unit :=
  match hexDecode signature with
  | .error e => .error e
  | .ok decodedSignature =>
    match parsePubKeyModel otherVaspPubKey with
    | .error e => .error e
    | .ok pubParsed =>
      match derParse decodedSignature with
      | .error e => .error e
      | .ok sigParsed =>
        if verifyModelBool hashedPayload sigParsed pubParsed then .ok ()
        else .error "invalid uma signature"

/-! ## Nonce generation (`GenerateNonce`, uma.go:73–80) -/

/-- The exclusive upper bound passed to `rand.Int` in `GenerateNonce`:
`big.NewInt(0xFFFFFFFF)`.  `rand.Int(rand.Reader, max)` returns a uniform
value in `[0, max)`. -/
def generateNonceBound : Nat := 0xFFFFFFFF

/-- Embedding of `GenerateNonce` (uma.go:73–80) applied to the sampled
random value `r` (the CSPRNG draw is made explicit; the source's only error
path is a CSPRNG read failure).  The output is the decimal string of `r`. -/
def GenerateNonce (r : Nat) : String := natToDec r

/-! ## The LnurlpRequest message (protocol data model) -/

/-- The `LnurlpRequest` entity (spec §3; the struct itself lives in the
protocol definitions outside `src/`, its fields are fixed by
`ParseLnurlpRequest` and `GetSignedLnurlpRequestUrl` in uma.go).
`timestamp` is Unix seconds. -/
structure LnurlpRequest where
  receiverAddress : String
  vaspDomain : String
  signature : String
  nonce : String
  timestamp : Int
  trStatus : Bool
deriving DecidableEq, Repr

/-- Modelled from the spec: the canonical signable payload of
`LnurlpRequest` (`signablePayload` in the protocol definitions outside
`src/`; spec §4.1 marks its exact field order as an open question).  It is
modelled as the `|`-joined concatenation of the request's non-signature
fields; only its determinism over those fields is relied on. -/
def signablePayloadLnurlp (r : LnurlpRequest) : String :=
  goJoin [r.receiverAddress, r.vaspDomain,
    (if r.trStatus then "true" else "false"), r.nonce, intToDec r.timestamp] "|"

/-- A parsed URL: host, path and ordered query parameters (model of Go's
`url.URL` as used by uma.go). -/
structure UmaUrl where
  host : String
  path : String
  query : List (String × String)
deriving DecidableEq, Repr

/-- Lower-casing of one character (ASCII range). -/
def charToLower (c : Char) : Char :=
  if 'A' ≤ c ∧ c ≤ 'Z' then Char.ofNat (c.toNat + 32) else c

/-- Model of Go's `strings.ToLower` on the ASCII range (the only comparison
in the source is against the ASCII literal `"true"`). -/
def strToLower (s : String) : String := String.mk (s.data.map charToLower)

/-- Model of `url.Values.Get`: first value bound to the key, `""` when the
key is absent. -/
def queryGet : List (String × String) → String → String
  | [], _ => ""
  | (k, v) :: rest, key => if k = key then v else queryGet rest key

/-- Remove every binding of a key (helper for `querySet`). -/
def queryRemove : List (String × String) → String → List (String × String)
  | [], _ => []
  | (k, v) :: rest, key =>
    if k = key then queryRemove rest key else (k, v) :: queryRemove rest key

/-- Model of `url.Values.Set`: replace every binding of the key with one
fresh binding. -/
def querySet (q : List (String × String)) (key v : String) : List (String × String) :=
  (key, v) :: queryRemove q key

/-- Path check of `ParseLnurlpRequest` (uma.go:199–203): split the path on
`/`, require exactly 4 parts with `.well-known` and `lnurlp` as the second
and third, and rebuild the receiver address as `{user}@{host}`. -/
def parsePathReceiver (path host : String) : Except String String :=
  match goSplit '/' path with
  | [_, p1, p2, p3] =>
    if p1 = ".well-known" ∧ p2 = "lnurlp" then .ok (p3 ++ "@" ++ host)
    else .error "invalid uma request path"
  | _ => .error "invalid uma request path"

/-- Core of `ParseLnurlpRequest` (uma.go:182–213) over the already-extracted
query parameter values, the URL path and the URL host, preserving the
source's order of checks: the timestamp is parsed (and its error returned)
before the missing-parameter check, then the path shape is checked. -/
def parseLnurlpCore (signature vaspDomain nonce trStatus timestamp : String)
    (path host : String) : Except String LnurlpRequest :=
  match parseInt64 timestamp with
  | none => .error "invalid timestamp"
  | some timestampAsInt =>
    if vaspDomain = "" ∨ signature = "" ∨ nonce = "" ∨ timestamp = "" then
      .error "missing uma query parameters. vaspDomain, signature, nonce, and timestamp are required"
    else
      match parsePathReceiver path host with
      | .error e => .error e
      | .ok receiverAddress =>
        .ok { vaspDomain, signature, receiverAddress, nonce,
              timestamp := timestampAsInt,
              trStatus := strToLower trStatus == "true" }

/-- Embedding of `ParseLnurlpRequest` (uma.go:182–213). -/
def ParseLnurlpRequest (u : UmaUrl) : Except String LnurlpRequest :=
  parseLnurlpCore (queryGet u.query "signature") (queryGet u.query "vaspDomain")
    (queryGet u.query "nonce") (queryGet u.query "trStatus")
    (queryGet u.query "timestamp") u.path u.host

/-- Embedding of `VerifyUmaLnurlpQuerySignature` (uma.go:221–224). -/
def VerifyUmaLnurlpQuerySignature (query : LnurlpRequest)
    (otherVaspSigningPubKey : List Nat) : Except String Unit :=
  verifySignature (sha256Model (strToBytes (signablePayloadLnurlp query)))
    query.signature otherVaspSigningPubKey

/-- Modelled from the spec: `LnurlpRequest.EncodeToUrl` (protocol
definitions outside `src/`; spec §3/§4.6: all fields become query parameters
on `https://{receiverDomain}/.well-known/lnurlp/{receiverUser}`, the
receiver address having the form `user@domain`). -/
def encodeToUrl (r : LnurlpRequest) : Except String UmaUrl :=
  match splitCh '@' r.receiverAddress.data with
  | [user, host] =>
    .ok { host := String.mk host,
          path := "/.well-known/lnurlp/" ++ String.mk user,
          query := [("signature", r.signature), ("vaspDomain", r.vaspDomain),
                    ("nonce", r.nonce),
                    ("trStatus", if r.trStatus then "true" else "false"),
                    ("timestamp", intToDec r.timestamp)] }
  | _ => .error "invalid receiver address"

/-- Embedding of `GetSignedLnurlpRequestUrl` (uma.go:146–170); the nonce
draw and the clock reading are explicit arguments. -/
def GetSignedLnurlpRequestUrl (signingPrivateKey : Nat)
    (receiverAddress senderVaspDomain : String) (trStatus : Bool)
    (nonceVal : Nat) (now : Int) : Except String UmaUrl :=
  let nonce := GenerateNonce nonceVal
  let unsignedRequest : LnurlpRequest :=
    { receiverAddress, trStatus, vaspDomain := senderVaspDomain,
      timestamp := now, nonce, signature := "" }
  let signature :=
    signPayload (strToBytes (signablePayloadLnurlp unsignedRequest)) signingPrivateKey
  encodeToUrl { unsignedRequest with signature }

/-! ## Compliance responses (`GetLnurlpResponse` /
`getSignedLnurlpComplianceResponse`, uma.go:254–278) and compliance payer
data (`GetPayRequest` / `getSignedCompliancePayerData`, uma.go:353–389) -/

/-- The `LnurlComplianceResponse` entity (spec §3). -/
structure LnurlComplianceResponse where
  isKYCd : Bool
  signature : String
  nonce : String
  timestamp : Int
  trStatus : Bool
  receiverIdentifier : String
deriving DecidableEq, Repr

/-- Embedding of `getSignedLnurlpComplianceResponse` (uma.go:254–278); the
clock reading and nonce draw are explicit arguments, and the only error
paths in the source are CSPRNG failures, treated as absent. -/
def getSignedLnurlpComplianceResponse (query : LnurlpRequest) (privateKey : Nat)
    (trStatus isReceiverKYCd : Bool) (timestamp : Int) (nonceVal : Nat) :
    LnurlComplianceResponse :=
  let nonce := GenerateNonce nonceVal
  let payloadString := goJoin [query.receiverAddress, nonce, intToDec timestamp] "|"
  { isKYCd := isReceiverKYCd,
    signature := signPayload (strToBytes payloadString) privateKey,
    nonce, timestamp, trStatus,
    receiverIdentifier := query.receiverAddress }

/-- The `CompliancePayerData` entity (spec §3); `trInfo` and `utxos` are
nullable in the source and are omitted from the wire format when absent. -/
structure CompliancePayerData where
  trInfo : Option String
  isKYCd : Bool
  utxos : Option (List String)
  utxoCallback : String
  signatureNonce : String
  signatureTimestamp : Int
  signature : String
deriving DecidableEq, Repr

/-- Embedding of `encryptTrInfo` (uma.go:391–404).  The ECIES library is
external; its key parsing and encryption are taken as function parameters,
so the theorems hold for every behaviour of the library. -/
def encryptTrInfo (eciesParse : List Nat → Except String (List Nat))
    (eciesEncrypt : List Nat → List Nat → Except String (List Nat))
    (trInfo : String) (receiverEncryptionPubKey : List Nat) : Except String String :=
  match eciesParse receiverEncryptionPubKey with
  | .error e => .error e
  | .ok pubKey =>
    match eciesEncrypt pubKey (strToBytes trInfo) with
    | .error e => .error e
    | .ok encryptedTrInfoBytes => .ok (hexEncode encryptedTrInfoBytes)

/-- Embedding of `getSignedCompliancePayerData` (uma.go:353–389): encrypt
the travel-rule text only when one is supplied (a `nil` pointer in the
source is `none` here), then sign `payerIdentifier|nonce|timestamp`. -/
def getSignedCompliancePayerData (eciesParse : List Nat → Except String (List Nat))
    (eciesEncrypt : List Nat → List Nat → Except String (List Nat))
    (receiverEncryptionPubKeyBytes : List Nat) (sendingVaspPrivateKey : Nat)
    (payerIdentifier : String) (trInfo : Option String) (isPayerKYCd : Bool)
    (payerUtxos : Option (List String)) (utxoCallback : String)
    (timestamp : Int) (nonceVal : Nat) : Except String CompliancePayerData :=
  let nonce := GenerateNonce nonceVal
  let encryptedTrInfoE : Except String (Option String) :=
    match trInfo with
    | none => .ok none
    | some t =>
      match encryptTrInfo eciesParse eciesEncrypt t receiverEncryptionPubKeyBytes with
      | .error e => .error e
      | .ok enc => .ok (some enc)
  match encryptedTrInfoE with
  | .error e => .error e
  | .ok encryptedTrInfo =>
    let payloadString := goJoin [payerIdentifier, nonce, intToDec timestamp] "|"
    .ok { trInfo := encryptedTrInfo, isKYCd := isPayerKYCd, utxos := payerUtxos,
          utxoCallback, signatureNonce := nonce, signatureTimestamp := timestamp,
          signature := signPayload (strToBytes payloadString) sendingVaspPrivateKey }

/-! ## The pay request and pay-request response (`GetPayReqResponse`,
uma.go:435–468) -/

/-- The `PayerData` entity (spec §3); optional fields are omitted from the
wire format when absent. -/
structure PayerData where
  name : Option String
  email : Option String
  identifier : String
  compliance : CompliancePayerData
deriving DecidableEq, Repr

/-- The `PayRequest` entity (spec §3). -/
structure PayRequest where
  currencyCode : String
  amount : Int
  payerData : PayerData
deriving DecidableEq, Repr

/-- JSON string literal (modelled without escaping; none of the reasoning
depends on the concrete rendering). -/
def jsonString (s : String) : String := "\"" ++ s ++ "\""

/-- Modelled from the spec: the `encoding/json` marshalling of
`CompliancePayerData` (the struct tags live in the protocol definitions
outside `src/`); absent optional fields are omitted, per spec §9. -/
def jsonMarshalCompliance (c : CompliancePayerData) : String :=
  "\x7b"
  ++ (match c.trInfo with
      | some t => "\"trInfo\":" ++ jsonString t ++ ","
      | none => "")
  ++ "\"isKycd\":" ++ (if c.isKYCd then "true" else "false")
  ++ (match c.utxos with
      | some us => ",\"utxos\":[" ++ goJoin (us.map jsonString) "," ++ "]"
      | none => "")
  ++ ",\"utxoCallback\":" ++ jsonString c.utxoCallback
  ++ ",\"signatureNonce\":" ++ jsonString c.signatureNonce
  ++ ",\"signatureTimestamp\":" ++ intToDec c.signatureTimestamp
  ++ ",\"signature\":" ++ jsonString c.signature
  ++ "\x7d"

/-- Modelled from the spec: the `encoding/json` marshalling of `PayerData`
(struct tags outside `src/`); absent optional fields are omitted. -/
def jsonMarshalPayerData (p : PayerData) : String :=
  "\x7b"
  ++ (match p.name with
      | some n => "\"name\":" ++ jsonString n ++ ","
      | none => "")
  ++ (match p.email with
      | some e => "\"email\":" ++ jsonString e ++ ","
      | none => "")
  ++ "\"identifier\":" ++ jsonString p.identifier
  ++ ",\"compliance\":" ++ jsonMarshalCompliance p.compliance
  ++ "\x7d"

/-- The invoice returned by the `LnurlInvoiceCreator` capability
(`objects.Invoice`, flattened to the only field the code reads:
`Data.EncodedPaymentRequest`). -/
structure Invoice where
  encodedPaymentRequest : String
deriving DecidableEq, Repr

/-- The reserved `Route` entry (always-empty list in this revision). -/
structure Route where
deriving DecidableEq, Repr

/-- The compliance block of `PayReqResponse` (spec §3). -/
structure PayReqResponseCompliance where
  utxos : List String
  utxoCallback : String
deriving DecidableEq, Repr

/-- The payment-info block of `PayReqResponse` (spec §3); `multiplier` is
msats per smallest currency unit. -/
structure PayReqResponsePaymentInfo where
  currencyCode : String
  multiplier : Int
deriving DecidableEq, Repr

/-- The `PayReqResponse` entity (spec §3). -/
structure PayReqResponse where
  encodedInvoice : String
  routes : List Route
  compliance : PayReqResponseCompliance
  paymentInfo : PayReqResponsePaymentInfo
deriving DecidableEq, Repr

/-- One recorded call to the `LnurlInvoiceCreator` capability. -/
structure CreatorCall where
  nodeId : String
  nodeMasterSeed : Option (List Nat)
  amountMsats : Int
  metadata : String
  expirySecs : Int
deriving DecidableEq, Repr

/-- Two's-complement wrap of an integer into the signed 64-bit range
`[-2^63, 2^63)`: the semantics of Go `int64` overflow. -/
def wrapInt64 (i : Int) : Int :=
  (i + 9223372036854775808) % 18446744073709551616 - 9223372036854775808

/-- Go `int64` multiplication: the mathematical product wrapped into the
signed 64-bit range (uma.go:447 multiplies two `int64` values, which wraps
on overflow). -/
def int64Mul (a b : Int) : Int := wrapInt64 (a * b)

/-- Embedding of `GetPayReqResponse` (uma.go:435–468): compute
`msatsAmount = amount * conversionRate` in `int64` (wrapping on overflow),
marshal the payer data, call the invoice creator once with the concatenated
metadata string, and wrap the result.  The creator capability is a function
parameter; the calls made to it are returned as an explicit trace.
(`json.Marshal` cannot fail on these field types, so the marshalling is
total.) -/
def GetPayReqResponse (query : PayRequest)
    (invoiceCreator : String → Option (List Nat) → Int → String → Int → Except String Invoice)
    (nodeId : String) (nodeMasterSeedBytes : Option (List Nat))
    (metadata currencyCode : String) (conversionRate : Int) (expirySecs : Int)
    (receiverChannelUtxos : List String) (utxoCallback : String) :
    Except String PayReqResponse × List CreatorCall :=
  let msatsAmount := int64Mul query.amount conversionRate
  let encodedPayerData := jsonMarshalPayerData query.payerData
  let metadataStr := metadata ++ "\x7b" ++ encodedPayerData ++ "\x7d"
  let call : CreatorCall :=
    { nodeId, nodeMasterSeed := nodeMasterSeedBytes, amountMsats := msatsAmount,
      metadata := metadataStr, expirySecs }
  match invoiceCreator nodeId nodeMasterSeedBytes msatsAmount metadataStr expirySecs with
  | .error e => (.error e, [call])
  | .ok encodedInvoice =>
    (.ok { encodedInvoice := encodedInvoice.encodedPaymentRequest,
           routes := [],
           compliance := { utxos := receiverChannelUtxos, utxoCallback },
           paymentInfo := { currencyCode, multiplier := conversionRate } },
     [call])

/-- Concrete compliance payer data used by the C6 witness. -/
def c6Compliance : CompliancePayerData :=
  { trInfo := none, isKYCd := true, utxos := none, utxoCallback := "",
    signatureNonce := "1", signatureTimestamp := 0, signature := "ab" }

/-- Concrete payer data used by the C6 witness. -/
def c6PayerData : PayerData :=
  { name := none, email := none, identifier := "$alice@vasp1.com",
    compliance := c6Compliance }

/-- Concrete pay request used by the C6 witness (`amount = 1000`). -/
def c6Query : PayRequest :=
  { currencyCode := "USD", amount := 1000, payerData := c6PayerData }

/-- Concrete invoice creator used by the C6 witness. -/
def c6Creator : String → Option (List Nat) → Int → String → Int → Except String Invoice :=
  fun _ _ _ _ _ => .ok { encodedPaymentRequest := "lnbc1000" }

/-! ## Counterparty key resolution (`FetchPublicKeyForVasp`, uma.go:32–71) -/

/-- The `PubKeyResponse` entity (spec §3/§6: the counterparty's published
signing and encryption key material; the struct itself lives outside
`src/`). -/
structure PubKeyResponse where
  signingPubKey : String
  encryptionPubKey : String
deriving DecidableEq, Repr

/-- Modelled from the spec: the `PublicKeyCache` capability (spec §6:
`get(domain) -> PubKeyResponse | absent`, `put(domain, PubKeyResponse)`);
the minimal conforming in-memory map, as an association list. -/
def PubKeyCache : Type := List (String × PubKeyResponse)

/-- Cache lookup (`cache.FetchPublicKeyForVasp` on the capability). -/
def cacheGet : PubKeyCache → String → Option PubKeyResponse
  | [], _ => none
  | (d, pk) :: rest, domain => if d = domain then some pk else cacheGet rest domain

/-- Cache insertion (`cache.AddPublicKeyForVasp` on the capability). -/
def cachePut (c : PubKeyCache) (domain : String) (pk : PubKeyResponse) : PubKeyCache :=
  (domain, pk) :: c

/-- Model of Go's `strings.HasPrefix`. -/
def strStartsWith (s pre : String) : Bool := pre.data.isPrefixOf s.data

/-- The URL fetched on a cache miss (uma.go:38–42): `http://` for domains
with the `localhost:` prefix, `https://` otherwise, plus the well-known
path. -/
def fetchUrlForVasp (vaspDomain : String) : String :=
  (if strStartsWith vaspDomain "localhost:" then "http://" else "https://")
  ++ vaspDomain ++ "/.well-known/lnurlpubkey"

/-- Embedding of `FetchPublicKeyForVasp` (uma.go:32–71).  The HTTP
transport (`http.Get` plus `io.ReadAll`, whose result is a status code and
a body) and the JSON decoding of the body (`json.Unmarshal` into the
`PubKeyResponse` struct defined outside `src/`) are function parameters.
The returned triple is the Go result, the cache after the call, and the
trace of URLs fetched. -/
def FetchPublicKeyForVasp (vaspDomain : String) (cache : PubKeyCache)
    (httpGet : String → Except String (Nat × String))
    (jsonDecodePubKey : String → Except String PubKeyResponse) :
    Except String PubKeyResponse × PubKeyCache × List String :=
  match cacheGet cache vaspDomain with
  | some publicKey => (.ok publicKey, cache, [])
  | none =>
    let u := fetchUrlForVasp vaspDomain
    match httpGet u with
    | .error e => (.error e, cache, [u])
    | .ok (statusCode, body) =>
      if statusCode ≠ 200 then (.error "invalid response from VASP", cache, [u])
      else
        match jsonDecodePubKey body with
        | .error e => (.error e, cache, [u])
        | .ok pubKeyResponse =>
          (.ok pubKeyResponse, cachePut cache vaspDomain pubKeyResponse, [u])

/-! ## Theorems -/

theorem decDigitVal_decDigit : ∀ d, d < 10 → decDigitVal (decDigit d) = some d := by
  decide

theorem parseDigitsGo_append (xs ys : List Char) :
    ∀ acc, parseDigitsGo acc (xs ++ ys) =
      match parseDigitsGo acc xs with
      | some a => parseDigitsGo a ys
      | none => none := by
  induction xs with
  | nil => intro acc; rfl
  | cons c cs ih =>
    intro acc
    simp only [List.cons_append, parseDigitsGo]
    cases decDigitVal c with
    | none => rfl
    | some d => exact ih _

theorem natToDigits_ne_nil (n : Nat) : natToDigits n ≠ [] := by
  rw [natToDigits]
  split <;> simp

theorem parseDigitsGo_natToDigits (n : Nat) :
    ∀ acc, parseDigitsGo acc (natToDigits n) =
      some (acc * 10 ^ (natToDigits n).length + n) := by
  induction n using Nat.strong_induction_on with
  | _ n ih =>
    intro acc
    rw [natToDigits]
    by_cases h : n < 10
    · rw [dif_pos h]
      simp only [parseDigitsGo, decDigitVal_decDigit n h, List.length_cons,
        List.length_nil]
      norm_num
    · rw [dif_neg h]
      rw [parseDigitsGo_append]
      have hlt : n / 10 < n := Nat.div_lt_self (by omega) (by omega)
      rw [ih (n / 10) hlt acc]
      have hm : n % 10 < 10 := Nat.mod_lt _ (by omega)
      simp only [parseDigitsGo, decDigitVal_decDigit _ hm, List.length_append,
        List.length_cons, List.length_nil, Nat.zero_add]
      congr 1
      have hdm : 10 * (n / 10) + n % 10 = n := Nat.div_add_mod n 10
      generalize (natToDigits (n / 10)).length = L
      have h2 : (acc * 10 ^ L + n / 10) * 10 + n % 10
          = acc * (10 ^ L * 10) + (10 * (n / 10) + n % 10) := by ring
      rw [h2, hdm, pow_succ]

theorem parseDigits_natToDigits (n : Nat) : parseDigits (natToDigits n) = some n := by
  have hne := natToDigits_ne_nil n
  unfold parseDigits
  cases h : natToDigits n with
  | nil => exact absurd h hne
  | cons c cs =>
    rw [← h, parseDigitsGo_natToDigits]
    simp

theorem decToNat_natToDec (n : Nat) : decToNat (natToDec n) = some n := by
  simpa [decToNat, natToDec] using parseDigits_natToDigits n

theorem natToDigits_head (n : Nat) :
    ∃ d cs, natToDigits n = decDigit d :: cs ∧ d < 10 := by
  induction n using Nat.strong_induction_on with
  | _ n ih =>
    rw [natToDigits]
    by_cases h : n < 10
    · rw [dif_pos h]; exact ⟨n, [], rfl, h⟩
    · rw [dif_neg h]
      obtain ⟨d, cs, heq, hd⟩ := ih (n / 10) (Nat.div_lt_self (by omega) (by omega))
      exact ⟨d, cs ++ [decDigit (n % 10)], by rw [heq]; rfl, hd⟩

theorem decDigit_ne_sign : ∀ d, d < 10 → decDigit d ≠ '+' ∧ decDigit d ≠ '-' := by
  decide

theorem natToDec_ne_empty (n : Nat) : natToDec n ≠ "" := by
  intro h
  have : (natToDec n).data = ("" : String).data := by rw [h]
  simp only [natToDec] at this
  exact natToDigits_ne_nil n this

theorem intToDec_ne_empty (i : Int) : intToDec i ≠ "" := by
  unfold intToDec
  split
  · intro h
    have : ("-" ++ natToDec i.natAbs).data = ("" : String).data := by rw [h]
    simp [String.data_append] at this
  · exact natToDec_ne_empty _

theorem parseInt64_intToDec (i : Int)
    (h1 : -9223372036854775808 ≤ i) (h2 : i ≤ 9223372036854775807) :
    parseInt64 (intToDec i) = some i := by
  by_cases hneg : i < 0
  · have hd : (intToDec i).data = '-' :: natToDigits i.natAbs := by
      simp only [intToDec, if_pos hneg, natToDec]
      rw [String.data_append]
      rfl
    rw [parseInt64, hd]
    simp only [parseInt64Chars, if_true]
    rw [parseDigits_natToDigits]
    have hle : i.natAbs ≤ 9223372036854775808 := by omega
    simp only [Option.some_bind, if_pos hle]
    rw [if_neg (show ¬('-' = '+') by decide)]
    congr 1
    omega
  · obtain ⟨d, cs, heq, hd10⟩ := natToDigits_head i.natAbs
    have hd : (intToDec i).data = decDigit d :: cs := by
      simp only [intToDec, if_neg hneg, natToDec, heq]
    rw [parseInt64, hd]
    simp only [parseInt64Chars]
    obtain ⟨hp, hm⟩ := decDigit_ne_sign d hd10
    rw [if_neg hp, if_neg hm, ← heq, parseDigits_natToDigits]
    have hle : i.natAbs ≤ 9223372036854775807 := by omega
    simp only [Option.some_bind, if_pos hle]
    congr 1
    omega

theorem splitCh_ne_nil (sep : Char) : ∀ l, splitCh sep l ≠ [] := by
  intro l
  induction l with
  | nil => simp [splitCh]
  | cons c cs ih =>
    simp only [splitCh]
    split
    · simp
    · split
      · simp
      · simp

theorem splitCh_not_mem (sep : Char) (l : List Char) (h : sep ∉ l) :
    splitCh sep l = [l] := by
  induction l with
  | nil => rfl
  | cons c cs ih =>
    simp only [List.mem_cons, not_or] at h
    have hc : ¬(c = sep) := fun hc => h.1 hc.symm
    simp only [splitCh, if_neg hc, ih h.2]

theorem splitCh_append (sep : Char) (xs ys : List Char) (h : sep ∉ xs) :
    splitCh sep (xs ++ sep :: ys) = xs :: splitCh sep ys := by
  induction xs with
  | nil => simp [splitCh]
  | cons x xs ih =>
    simp only [List.mem_cons, not_or] at h
    have hx : ¬(x = sep) := fun hc => h.1 hc.symm
    simp only [List.cons_append, splitCh, List.append_eq, if_neg hx, ih h.2]

theorem string_append_assoc (a b c : String) : a ++ b ++ c = a ++ (b ++ c) := by
  apply String.ext
  simp [String.data_append, List.append_assoc]

theorem string_mk_cons_ne_empty (c : Char) (l : List Char) : String.mk (c :: l) ≠ "" := by
  intro h
  have : (String.mk (c :: l)).data = ("" : String).data := by rw [h]
  simp at this

theorem hexVal_hexDig : ∀ n, n < 16 → hexVal (hexDig n) = some n := by decide

theorem hexDecodeChars_hexChars (bs : List Nat) (h : ∀ b ∈ bs, b < 256) :
    hexDecodeChars (hexChars bs) = .ok bs := by
  induction bs with
  | nil => rfl
  | cons b bs ih =>
    have hb : b < 256 := h b (by simp)
    have h1 : b / 16 < 16 := by omega
    have h2 : b % 16 < 16 := by omega
    simp only [hexChars, hexDecodeChars, hexVal_hexDig _ h1, hexVal_hexDig _ h2,
      ih (fun x hx => h x (by simp [hx]))]
    rw [Nat.div_add_mod]

theorem hexDecode_hexEncode (bs : List Nat) (h : ∀ b ∈ bs, b < 256) :
    hexDecode (hexEncode bs) = .ok bs := by
  simpa [hexDecode, hexEncode] using hexDecodeChars_hexChars bs h

theorem hexEncode_cons_ne_empty (b : Nat) (bs : List Nat) :
    hexEncode (b :: bs) ≠ "" := by
  simp only [hexEncode, hexChars]
  exact string_mk_cons_ne_empty _ _

theorem hexDecodeChars_error :
    ∀ (l : List Char) (e : String), hexDecodeChars l = .error e →
      e = "encoding/hex: odd length hex string" ∨ e = "encoding/hex: invalid byte"
  | [], e => by simp [hexDecodeChars]
  | [_], e => by
    simp only [hexDecodeChars, Except.error.injEq]
    intro h
    exact Or.inl h.symm
  | a :: b :: rest, e => by
    simp only [hexDecodeChars]
    cases hva : hexVal a with
    | none => intro h; cases h; exact Or.inr rfl
    | some x =>
      cases hvb : hexVal b with
      | none => intro h; cases h; exact Or.inr rfl
      | some y =>
        cases hrec : hexDecodeChars rest with
        | ok bs => intro h; cases h
        | error e2 =>
          intro h
          cases h
          exact hexDecodeChars_error rest _ hrec

theorem hexDecode_error (s : String) (e : String) (h : hexDecode s = .error e) :
    e = "encoding/hex: odd length hex string" ∨ e = "encoding/hex: invalid byte" :=
  hexDecodeChars_error s.data e h

theorem sha256Model_lt (l : List Nat) : ∀ b ∈ sha256Model l, b < 256 := by
  intro b hb
  simp only [sha256Model, List.mem_singleton] at hb
  subst hb
  exact Nat.mod_lt _ (by omega)

theorem sha256Model_length (l : List Nat) : (sha256Model l).length = 1 := rfl

theorem take_append_self {α : Type} (h p : List α) : (h ++ p).take h.length = h := by
  induction h with
  | nil => rfl
  | cons a l ih => simp [List.take, ih]

theorem drop_append_self {α : Type} (h p : List α) : (h ++ p).drop h.length = p := by
  induction h with
  | nil => rfl
  | cons a l ih => simp [List.drop, ih]

theorem derParse_derSerialize (m : ModSig) : derParse (derSerialize m) = .ok m := by
  simp only [derSerialize, derParse]
  rw [if_pos (by simp)]
  rw [take_append_self, drop_append_self]

theorem derParse_error (l : List Nat) (e : String) (h : derParse l = .error e) :
    e = "malformed DER signature" := by
  cases l with
  | nil =>
    simp only [derParse, Except.error.injEq] at h
    exact h.symm
  | cons n rest =>
    simp only [derParse] at h
    split at h
    · cases h
    · simp only [Except.error.injEq] at h
      exact h.symm

theorem parsePubKeyModel_pubOf (k : Nat) : parsePubKeyModel (pubOf k) = .ok (pubOf k) := by
  simp [parsePubKeyModel, pubOf]

theorem parsePubKeyModel_error (l : List Nat) (e : String)
    (h : parsePubKeyModel l = .error e) : e = "invalid public key" := by
  cases l with
  | nil =>
    simp only [parsePubKeyModel, Except.error.injEq] at h
    exact h.symm
  | cons c rest =>
    simp only [parsePubKeyModel] at h
    split at h
    · cases h
    · simp only [Except.error.injEq] at h
      exact h.symm

theorem derSerialize_sign_lt (payload : List Nat) (k : Nat) :
    ∀ b ∈ derSerialize ⟨sha256Model payload, pubOf k⟩, b < 256 := by
  intro b hb
  simp only [derSerialize, sha256Model_length, pubOf, List.cons_append,
    List.mem_cons, List.mem_append, List.mem_singleton] at hb
  rcases hb with h | h | h
  · omega
  · exact sha256Model_lt payload b h
  · simp only [List.mem_cons, List.not_mem_nil, or_false] at h
    rcases h with h | h <;> omega

/-- Round trip of the modelled signature scheme through the repository's
`signPayload`/`verifySignature` pair. -/
theorem verifySignature_signPayload (payload : List Nat) (k : Nat) :
    verifySignature (sha256Model payload) (signPayload payload k) (pubOf k) = .ok () := by
  unfold verifySignature signPayload
  rw [hexDecode_hexEncode _ (derSerialize_sign_lt payload k)]
  simp [parsePubKeyModel_pubOf, derParse_derSerialize, verifyModelBool]

theorem GenerateNonce_ne_empty (r : Nat) : GenerateNonce r ≠ "" :=
  natToDec_ne_empty r

theorem queryGet_querySet_same (q : List (String × String)) (key v : String) :
    queryGet (querySet q key v) key = v := by
  simp [querySet, queryGet]

theorem queryGet_queryRemove (q : List (String × String)) (key k2 : String)
    (h : k2 ≠ key) : queryGet (queryRemove q key) k2 = queryGet q k2 := by
  induction q with
  | nil => rfl
  | cons p rest ih =>
    obtain ⟨k, v⟩ := p
    simp only [queryRemove]
    by_cases hk : k = key
    · rw [if_pos hk, ih]
      simp only [queryGet]
      rw [if_neg (by rw [hk]; exact fun hh => h hh.symm)]
    · rw [if_neg hk]
      simp only [queryGet]
      by_cases hk2 : k = k2
      · rw [if_pos hk2, if_pos hk2]
      · rw [if_neg hk2, if_neg hk2, ih]

theorem queryGet_querySet_other (q : List (String × String)) (key v k2 : String)
    (h : k2 ≠ key) : queryGet (querySet q key v) k2 = queryGet q k2 := by
  simp only [querySet, queryGet]
  rw [if_neg (fun hh => h hh.symm), queryGet_queryRemove q key k2 h]

theorem signPayload_ne_empty (p : List Nat) (k : Nat) : signPayload p k ≠ "" := by
  unfold signPayload derSerialize
  exact hexEncode_cons_ne_empty _ _

theorem data_user_at_host (user host : String) :
    (user ++ "@" ++ host).data = user.data ++ '@' :: host.data := by
  rw [String.data_append, String.data_append]
  simp [List.append_assoc]

theorem splitCh_receiver (user host : String)
    (hu : '@' ∉ user.data) (hh : '@' ∉ host.data) :
    splitCh '@' (user ++ "@" ++ host).data = [user.data, host.data] := by
  rw [data_user_at_host user host]
  rw [splitCh_append _ _ _ hu, splitCh_not_mem _ _ hh]

theorem goSplit_wellknown (user : String) (h : '/' ∉ user.data) :
    goSplit '/' ("/.well-known/lnurlp/" ++ user) = ["", ".well-known", "lnurlp", user] := by
  unfold goSplit
  have hdata : ("/.well-known/lnurlp/" ++ user).data
      = '/' :: (".well-known".data ++ '/' :: ("lnurlp".data ++ '/' :: user.data)) := by
    cases user with
    | mk l => rfl
  rw [hdata]
  rw [show splitCh '/' ('/' :: (".well-known".data ++ '/' :: ("lnurlp".data ++ '/' :: user.data)))
      = [] :: splitCh '/' (".well-known".data ++ '/' :: ("lnurlp".data ++ '/' :: user.data))
    from by simp [splitCh]]
  rw [splitCh_append _ _ _ (by decide)]
  rw [splitCh_append _ _ _ (by decide)]
  rw [splitCh_not_mem _ _ h]
  rfl

theorem parsePathReceiver_wellknown (user host : String) (h : '/' ∉ user.data) :
    parsePathReceiver ("/.well-known/lnurlp/" ++ user) host = .ok (user ++ "@" ++ host) := by
  unfold parsePathReceiver
  simp only [goSplit_wellknown user h]
  simp

theorem trStatus_of_bool (tr : Bool) :
    (strToLower (if tr then "true" else "false") == "true") = tr := by
  cases tr <;> decide

theorem encodeToUrl_eq (r : LnurlpRequest) (user host : String)
    (hr : r.receiverAddress = user ++ "@" ++ host)
    (hu : '@' ∉ user.data) (hh : '@' ∉ host.data) :
    encodeToUrl r = .ok
      { host := host, path := "/.well-known/lnurlp/" ++ user,
        query := [("signature", r.signature), ("vaspDomain", r.vaspDomain),
                  ("nonce", r.nonce),
                  ("trStatus", if r.trStatus then "true" else "false"),
                  ("timestamp", intToDec r.timestamp)] } := by
  unfold encodeToUrl
  rw [hr, splitCh_receiver user host hu hh]

/-- C1: building a signed lnurlp request URL and parsing it back recovers
`receiverAddress`, `vaspDomain` and `trStatus`, and the signature verifies
against the public key matching the signing private key. -/
theorem C1_lnurlp_request_roundtrip
    (user host domain : String) (k nonceVal : Nat) (tr : Bool) (now : Int)
    (huAt : '@' ∉ user.data) (huSlash : '/' ∉ user.data) (hhAt : '@' ∉ host.data)
    (hdom : domain ≠ "") (_hnv : nonceVal < generateNonceBound)
    (h1 : -9223372036854775808 ≤ now) (h2 : now ≤ 9223372036854775807) :
    ∃ u req,
      GetSignedLnurlpRequestUrl k (user ++ "@" ++ host) domain tr nonceVal now = .ok u
      ∧ ParseLnurlpRequest u = .ok req
      ∧ req.receiverAddress = user ++ "@" ++ host
      ∧ req.vaspDomain = domain
      ∧ req.trStatus = tr
      ∧ VerifyUmaLnurlpQuerySignature req (pubOf k) = .ok () := by
  set nonceS := GenerateNonce nonceVal with hnonceS
  set P := signablePayloadLnurlp
    { receiverAddress := user ++ "@" ++ host, trStatus := tr, vaspDomain := domain,
      timestamp := now, nonce := nonceS, signature := "" } with hP
  set sig := signPayload (strToBytes P) k with hsig
  have htr := trStatus_of_bool tr
  refine ⟨{ host := host, path := "/.well-known/lnurlp/" ++ user,
            query := [("signature", sig), ("vaspDomain", domain), ("nonce", nonceS),
                      ("trStatus", if tr then "true" else "false"),
                      ("timestamp", intToDec now)] },
          { vaspDomain := domain, signature := sig,
            receiverAddress := user ++ "@" ++ host, nonce := nonceS,
            timestamp := now,
            trStatus := strToLower (if tr then "true" else "false") == "true" },
          ?_, ?_, rfl, rfl, htr, ?_⟩
  · exact encodeToUrl_eq
      { receiverAddress := user ++ "@" ++ host, trStatus := tr, vaspDomain := domain,
        timestamp := now, nonce := nonceS, signature := sig }
      user host rfl huAt hhAt
  · show parseLnurlpCore sig domain nonceS (if tr then "true" else "false")
      (intToDec now) ("/.well-known/lnurlp/" ++ user) host = _
    simp only [parseLnurlpCore, parseInt64_intToDec now h1 h2]
    rw [if_neg (by
      push_neg
      exact ⟨hdom, signPayload_ne_empty _ _,
        GenerateNonce_ne_empty nonceVal, intToDec_ne_empty now⟩)]
    simp only [parsePathReceiver_wellknown user host huSlash]
  · unfold VerifyUmaLnurlpQuerySignature
    have hpay : signablePayloadLnurlp
        { vaspDomain := domain, signature := sig,
          receiverAddress := user ++ "@" ++ host, nonce := nonceS,
          timestamp := now,
          trStatus := strToLower (if tr then "true" else "false") == "true" } = P := by
      rw [hP]
      simp only [signablePayloadLnurlp, htr]
    rw [hpay]
    exact verifySignature_signPayload (strToBytes P) k

/-- C1 witness: the round trip at a concrete address, domain, key, nonce and
timestamp. -/
theorem C1_witness :
    ∃ u req,
      GetSignedLnurlpRequestUrl 5 ("$alice" ++ "@" ++ "vasp2.com") "vasp1.com"
        true 7 1700000000 = .ok u
      ∧ ParseLnurlpRequest u = .ok req
      ∧ req.receiverAddress = "$alice" ++ "@" ++ "vasp2.com"
      ∧ req.vaspDomain = "vasp1.com"
      ∧ req.trStatus = true
      ∧ VerifyUmaLnurlpQuerySignature req (pubOf 5) = .ok () :=
  C1_lnurlp_request_roundtrip "$alice" "vasp2.com" "vasp1.com" 5 7 true 1700000000
    (by decide) (by decide) (by decide) (by decide) (by decide) (by decide) (by decide)

/-- The success case of `parseLnurlpCore`: the parsed `trStatus` is the
lower-cased string comparison with `"true"`, and changing the `trStatus`
parameter to any other value never changes success, only that field. -/
theorem parseLnurlpCore_trStatus (sig vasp nonce tr ts path host : String)
    (r : LnurlpRequest) (h : parseLnurlpCore sig vasp nonce tr ts path host = .ok r) :
    r.trStatus = (strToLower tr == "true")
    ∧ ∀ tr2, parseLnurlpCore sig vasp nonce tr2 ts path host
        = .ok { r with trStatus := strToLower tr2 == "true" } := by
  unfold parseLnurlpCore at h
  cases hts : parseInt64 ts with
  | none =>
    simp only [hts] at h
    exact Except.noConfusion h
  | some t =>
    simp only [hts] at h
    by_cases hmiss : vasp = "" ∨ sig = "" ∨ nonce = "" ∨ ts = ""
    · rw [if_pos hmiss] at h; cases h
    · rw [if_neg hmiss] at h
      cases hpr : parsePathReceiver path host with
      | error e =>
        simp only [hpr] at h
        exact Except.noConfusion h
      | ok recv =>
        simp only [hpr, Except.ok.injEq] at h
        subst h
        refine ⟨rfl, fun tr2 => ?_⟩
        unfold parseLnurlpCore
        simp only [hts, if_neg hmiss, hpr]

/-- C10: parsing never fails because of the `trStatus` query parameter; on
success `TrStatus` is exactly the case-lowered comparison of the parameter
with `"true"` (an absent parameter reads as `""`, hence `false`), and
replacing the parameter with any value leaves parsing successful with only
`TrStatus` recomputed. -/
theorem C10_trstatus_never_fails (u : UmaUrl) (r : LnurlpRequest) (v : String)
    (h : ParseLnurlpRequest u = .ok r) :
    r.trStatus = (strToLower (queryGet u.query "trStatus") == "true")
    ∧ (queryGet u.query "trStatus" = "" → r.trStatus = false)
    ∧ ParseLnurlpRequest { u with query := querySet u.query "trStatus" v }
        = .ok { r with trStatus := strToLower v == "true" } := by
  unfold ParseLnurlpRequest at h
  obtain ⟨h1, h2⟩ := parseLnurlpCore_trStatus _ _ _ _ _ _ _ r h
  refine ⟨h1, ?_, ?_⟩
  · intro habs
    rw [h1, habs]
    decide
  · unfold ParseLnurlpRequest
    simp only
    rw [queryGet_querySet_other _ _ _ _ (by decide),
      queryGet_querySet_other _ _ _ _ (by decide),
      queryGet_querySet_other _ _ _ _ (by decide),
      queryGet_querySet_same,
      queryGet_querySet_other _ _ _ _ (by decide)]
    exact h2 v

/-- C10 witness: a concrete parse, its `trStatus` formula, and the
replacement property at the value `"TRUE"`. -/
theorem C10_witness :
    ({ receiverAddress := "alice" ++ "@" ++ "vasp2.com", vaspDomain := "vasp1.com",
       signature := "ab", nonce := "1", timestamp := 5,
       trStatus := false } : LnurlpRequest).trStatus
      = (strToLower (queryGet [("vaspDomain", "vasp1.com"), ("signature", "ab"),
          ("nonce", "1"), ("timestamp", "5")] "trStatus") == "true")
    ∧ (queryGet [("vaspDomain", "vasp1.com"), ("signature", "ab"),
          ("nonce", "1"), ("timestamp", "5")] "trStatus" = "" →
        ({ receiverAddress := "alice" ++ "@" ++ "vasp2.com", vaspDomain := "vasp1.com",
           signature := "ab", nonce := "1", timestamp := 5,
           trStatus := false } : LnurlpRequest).trStatus = false)
    ∧ ParseLnurlpRequest
        { host := "vasp2.com", path := "/.well-known/lnurlp/alice",
          query := querySet [("vaspDomain", "vasp1.com"), ("signature", "ab"),
            ("nonce", "1"), ("timestamp", "5")] "trStatus" "TRUE" }
        = .ok { receiverAddress := "alice" ++ "@" ++ "vasp2.com",
                vaspDomain := "vasp1.com", signature := "ab", nonce := "1",
                timestamp := 5, trStatus := strToLower "TRUE" == "true" } :=
  C10_trstatus_never_fails
    { host := "vasp2.com", path := "/.well-known/lnurlp/alice",
      query := [("vaspDomain", "vasp1.com"), ("signature", "ab"),
        ("nonce", "1"), ("timestamp", "5")] }
    { receiverAddress := "alice" ++ "@" ++ "vasp2.com", vaspDomain := "vasp1.com",
      signature := "ab", nonce := "1", timestamp := 5, trStatus := false }
    "TRUE" (by rfl)

/-- C4 (amended): the timestamp is parsed first, so a missing or non-integer
`timestamp` yields the `invalid timestamp` error; the `MissingParameter`
error is returned when the timestamp parses and any of `vaspDomain`,
`signature`, `nonce` is absent. -/
theorem C4_parse_error_precedence (u : UmaUrl) :
    (parseInt64 (queryGet u.query "timestamp") = none →
      ParseLnurlpRequest u = .error "invalid timestamp")
    ∧ (∀ t, parseInt64 (queryGet u.query "timestamp") = some t →
        (queryGet u.query "vaspDomain" = "" ∨ queryGet u.query "signature" = ""
          ∨ queryGet u.query "nonce" = "") →
        ParseLnurlpRequest u =
          .error "missing uma query parameters. vaspDomain, signature, nonce, and timestamp are required") := by
  constructor
  · intro h
    unfold ParseLnurlpRequest parseLnurlpCore
    simp only [h]
  · intro t h hmiss
    unfold ParseLnurlpRequest parseLnurlpCore
    simp only [h]
    rw [if_pos (by tauto)]

/-- C4 witness: both error precedences at concrete URLs (timestamp absent →
`invalid timestamp`; timestamp present, `vaspDomain` absent →
`MissingParameter`). -/
theorem C4_witness :
    ParseLnurlpRequest
      { host := "vasp2.com", path := "/.well-known/lnurlp/alice",
        query := [("vaspDomain", "vasp1.com")] } = .error "invalid timestamp"
    ∧ ParseLnurlpRequest
      { host := "vasp2.com", path := "/.well-known/lnurlp/alice",
        query := [("timestamp", "5")] } =
      .error "missing uma query parameters. vaspDomain, signature, nonce, and timestamp are required" :=
  ⟨(C4_parse_error_precedence _).1 rfl,
   (C4_parse_error_precedence _).2 5 rfl (Or.inl rfl)⟩

/-- C4 counterexample to the claim as stated: a URL whose `timestamp`
parameter is absent (with `vaspDomain`, `signature`, `nonce` all present)
fails with `invalid timestamp`, not with the `MissingParameter` error the
claim requires for every absent required parameter. -/
theorem C4_counterexample :
    ParseLnurlpRequest
      { host := "vasp2.com", path := "/.well-known/lnurlp/alice",
        query := [("vaspDomain", "vasp1.com"), ("signature", "abcd"),
          ("nonce", "12345")] } = .error "invalid timestamp"
    ∧ "invalid timestamp" ≠
        "missing uma query parameters. vaspDomain, signature, nonce, and timestamp are required" :=
  ⟨rfl, by decide⟩

/-! ## C3: the range of `GenerateNonce` -/

/-- C3 (amended): every `GenerateNonce` output is the decimal encoding of
the sampled random value, and that value is below `0xFFFFFFFF` (so at most
`2^32 - 2`); the generator is 32-bit-bounded, not 64-bit. -/
theorem C3_nonce_range (r : Nat) (h : r < generateNonceBound) :
    decToNat (GenerateNonce r) = some r ∧ r ≤ 4294967294 := by
  refine ⟨decToNat_natToDec r, ?_⟩
  simp only [generateNonceBound] at h
  omega

/-- C3 witness: the generator at the sampled value 7. -/
theorem C3_witness : decToNat (GenerateNonce 7) = some 7 ∧ 7 ≤ 4294967294 :=
  C3_nonce_range 7 (by decide)

/-- C3 counterexample to the claim as stated: the decimal encoding of
`2^64 - 1` is not a possible output of `GenerateNonce`, because the bound
passed to `rand.Int` is `0xFFFFFFFF`. -/
theorem C3_counterexample :
    ¬ ∃ r, r < generateNonceBound ∧ GenerateNonce r = natToDec 18446744073709551615 := by
  rintro ⟨r, hr, he⟩
  have h1 : decToNat (GenerateNonce r) = some r := decToNat_natToDec r
  rw [he, decToNat_natToDec] at h1
  have h2 : (18446744073709551615 : Nat) = r := Option.some.inj h1
  simp only [generateNonceBound] at hr
  omega

theorem goJoin_three (a b c sep : String) :
    goJoin [a, b, c] sep = a ++ sep ++ b ++ sep ++ c := by
  apply String.ext
  simp [goJoin, String.data_append, List.append_assoc]

/-- C2: the bytes signed for the compliance response are exactly
`receiverAddress|nonce|timestamp`, and the bytes signed for the compliance
payer data are exactly `payerIdentifier|nonce|timestamp` — nothing else, no
escaping. -/
theorem C2_signable_payloads (query : LnurlpRequest) (k : Nat) (tr kycd : Bool)
    (ts : Int) (nv : Nat)
    (eciesParse : List Nat → Except String (List Nat))
    (eciesEncrypt : List Nat → List Nat → Except String (List Nat))
    (recvKey : List Nat) (k2 : Nat) (payerId : String) (trInfo : Option String)
    (kycd2 : Bool) (utxos : Option (List String)) (cb : String) (ts2 : Int)
    (nv2 : Nat) :
    (getSignedLnurlpComplianceResponse query k tr kycd ts nv).signature
      = signPayload (strToBytes
          (query.receiverAddress ++ "|" ++ GenerateNonce nv ++ "|" ++ intToDec ts)) k
    ∧ ∀ d, getSignedCompliancePayerData eciesParse eciesEncrypt recvKey k2 payerId
          trInfo kycd2 utxos cb ts2 nv2 = .ok d →
        d.signature = signPayload (strToBytes
          (payerId ++ "|" ++ GenerateNonce nv2 ++ "|" ++ intToDec ts2)) k2 := by
  constructor
  · show signPayload (strToBytes
        (goJoin [query.receiverAddress, GenerateNonce nv, intToDec ts] "|")) k = _
    rw [goJoin_three]
  · intro d hd
    cases htri : trInfo with
    | none =>
      simp only [getSignedCompliancePayerData, htri] at hd
      cases hd
      simp only [goJoin_three]
    | some t =>
      simp only [getSignedCompliancePayerData, htri] at hd
      cases henc : encryptTrInfo eciesParse eciesEncrypt t recvKey with
      | error e =>
        simp only [henc] at hd
        exact Except.noConfusion hd
      | ok enc =>
        simp only [henc] at hd
        cases hd
        simp only [goJoin_three]

/-- C2 witness: both payloads at concrete inputs. -/
theorem C2_witness :
    (getSignedLnurlpComplianceResponse
        { receiverAddress := "bob@vasp2.com", vaspDomain := "vasp1.com",
          signature := "", nonce := "", timestamp := 0, trStatus := true }
        3 true true 100 4).signature
      = signPayload (strToBytes
          ("bob@vasp2.com" ++ "|" ++ GenerateNonce 4 ++ "|" ++ intToDec 100)) 3
    ∧ ∃ d, getSignedCompliancePayerData (fun l => .ok l) (fun kk m => .ok (kk ++ m))
          [2] 9 "alice" none true none "" 200 6 = .ok d
        ∧ d.signature = signPayload (strToBytes
            ("alice" ++ "|" ++ GenerateNonce 6 ++ "|" ++ intToDec 200)) 9 :=
  ⟨(C2_signable_payloads
      { receiverAddress := "bob@vasp2.com", vaspDomain := "vasp1.com",
        signature := "", nonce := "", timestamp := 0, trStatus := true }
      3 true true 100 4 (fun l => .ok l) (fun kk m => .ok (kk ++ m))
      [2] 9 "alice" none true none "" 200 6).1,
   _, rfl,
   (C2_signable_payloads
      { receiverAddress := "bob@vasp2.com", vaspDomain := "vasp1.com",
        signature := "", nonce := "", timestamp := 0, trStatus := true }
      3 true true 100 4 (fun l => .ok l) (fun kk m => .ok (kk ++ m))
      [2] 9 "alice" none true none "" 200 6).2 _ rfl⟩

/-! ## C5: the error taxonomy of `verifySignature` -/

/-- C5 (amended): each decoding stage of `verifySignature` propagates its
own decode error, and a cryptographically mismatched signature yields the
distinct error `invalid uma signature` (an error return, not a boolean
false), distinguishable from every malformed-input outcome. -/
theorem C5_verify_error_taxonomy (hash : List Nat) (sig : String) (pub : List Nat) :
    (∀ e, hexDecode sig = .error e →
        verifySignature hash sig pub = .error e ∧ e ≠ "invalid uma signature")
    ∧ (∀ bs e, hexDecode sig = .ok bs → parsePubKeyModel pub = .error e →
        verifySignature hash sig pub = .error e ∧ e = "invalid public key")
    ∧ (∀ bs pk e, hexDecode sig = .ok bs → parsePubKeyModel pub = .ok pk →
        derParse bs = .error e →
        verifySignature hash sig pub = .error e ∧ e = "malformed DER signature")
    ∧ (∀ bs pk m, hexDecode sig = .ok bs → parsePubKeyModel pub = .ok pk →
        derParse bs = .ok m → verifyModelBool hash m pk = false →
        verifySignature hash sig pub = .error "invalid uma signature") := by
  refine ⟨?_, ?_, ?_, ?_⟩
  · intro e he
    refine ⟨?_, ?_⟩
    · unfold verifySignature
      simp only [he]
    · rcases hexDecode_error sig e he with h1 | h1 <;> subst h1 <;> decide
  · intro bs e hb he
    refine ⟨?_, parsePubKeyModel_error pub e he⟩
    unfold verifySignature
    simp only [hb, he]
  · intro bs pk e hb hp he
    refine ⟨?_, derParse_error bs e he⟩
    unfold verifySignature
    simp only [hb, hp, he]
  · intro bs pk m hb hp hm hv
    unfold verifySignature
    simp only [hb, hp, hm, hv]
    rw [if_neg (by simp [hv])]

/-- C5 witness: a malformed public key at a concrete input propagates the
key-decode error. -/
theorem C5_witness :
    verifySignature [7] "01" [9] = .error "invalid public key"
    ∧ "invalid public key" = "invalid public key" :=
  (C5_verify_error_taxonomy [7] "01" [9]).2.1 [1] "invalid public key" rfl rfl

/-- C5 counterexample to the claim as stated: at a concrete input where the
hex signature, the public key and the DER structure all decode successfully
but the signature does not match, `verifySignature` returns an error
(`invalid uma signature`), not a boolean false. -/
theorem C5_counterexample :
    hexDecode "01070205" = .ok [1, 7, 2, 5]
    ∧ parsePubKeyModel [2, 5] = .ok [2, 5]
    ∧ derParse [1, 7, 2, 5] = .ok ⟨[7], [2, 5]⟩
    ∧ verifySignature [8] "01070205" [2, 5] = .error "invalid uma signature" :=
  ⟨rfl, rfl, rfl, rfl⟩

/-! ## C8: travel-rule encryption gating in `getSignedCompliancePayerData` -/

/-- C8 (amended): the `TrInfo` field is omitted exactly when no travel-rule
pointer is supplied; any supplied text — including the empty string — is
encrypted, and the stored value is the hex encoding of the ECIES ciphertext;
a malformed receiver key fails the whole operation with the key-parse
error. -/
theorem C8_trinfo_gating (eciesParse : List Nat → Except String (List Nat))
    (eciesEncrypt : List Nat → List Nat → Except String (List Nat))
    (recvKey : List Nat) (k : Nat) (payerId : String) (trInfo : Option String)
    (kycd : Bool) (utxos : Option (List String)) (cb : String) (ts : Int) (nv : Nat) :
    (trInfo = none → ∃ d, getSignedCompliancePayerData eciesParse eciesEncrypt recvKey
        k payerId trInfo kycd utxos cb ts nv = .ok d ∧ d.trInfo = none)
    ∧ (∀ t key2 ct, trInfo = some t → eciesParse recvKey = .ok key2 →
        eciesEncrypt key2 (strToBytes t) = .ok ct →
        ∃ d, getSignedCompliancePayerData eciesParse eciesEncrypt recvKey
            k payerId trInfo kycd utxos cb ts nv = .ok d
          ∧ d.trInfo = some (hexEncode ct))
    ∧ (∀ t e, trInfo = some t → eciesParse recvKey = .error e →
        getSignedCompliancePayerData eciesParse eciesEncrypt recvKey
          k payerId trInfo kycd utxos cb ts nv = .error e) := by
  refine ⟨?_, ?_, ?_⟩
  · intro h
    subst h
    exact ⟨_, rfl, rfl⟩
  · intro t key2 ct h hp he
    subst h
    refine ⟨{ trInfo := some (hexEncode ct), isKYCd := kycd, utxos := utxos,
              utxoCallback := cb, signatureNonce := GenerateNonce nv,
              signatureTimestamp := ts,
              signature := signPayload (strToBytes
                (goJoin [payerId, GenerateNonce nv, intToDec ts] "|")) k }, ?_, rfl⟩
    unfold getSignedCompliancePayerData encryptTrInfo
    simp only [hp, he]
  · intro t e h hp
    subst h
    unfold getSignedCompliancePayerData encryptTrInfo
    simp only [hp]

/-- C8 witness: with a parsing key and a successful encryption, supplied
text is stored hex-encrypted; with an absent pointer the field is omitted. -/
theorem C8_witness :
    (∃ d, getSignedCompliancePayerData (fun l => .ok l) (fun kk m => .ok (kk ++ m))
        [2] 9 "alice" (some "travel rule data") true none "" 200 6 = .ok d
      ∧ d.trInfo = some (hexEncode ([2] ++ strToBytes "travel rule data")))
    ∧ (∃ d, getSignedCompliancePayerData (fun l => .ok l) (fun kk m => .ok (kk ++ m))
        [2] 9 "alice" none true none "" 200 6 = .ok d ∧ d.trInfo = none) :=
  ⟨(C8_trinfo_gating (fun l => .ok l) (fun kk m => .ok (kk ++ m))
      [2] 9 "alice" (some "travel rule data") true none "" 200 6).2.1
      "travel rule data" [2] ([2] ++ strToBytes "travel rule data") rfl rfl rfl,
   (C8_trinfo_gating (fun l => .ok l) (fun kk m => .ok (kk ++ m))
      [2] 9 "alice" none true none "" 200 6).1 rfl⟩

/-- C8 counterexample to the claim as stated: a supplied but empty
travel-rule text (`trInfo = some ""`, a non-nil pointer to the empty string
in Go) is still encrypted and stored, so `TrInfo` is present even though no
non-empty text was supplied. -/
theorem C8_counterexample :
    (getSignedCompliancePayerData (fun l => .ok l) (fun kk m => .ok (kk ++ m))
        [2] 9 "alice" (some "") true none "" 200 6).map (fun d => d.trInfo)
      = .ok (some "02")
    ∧ some "02" ≠ (none : Option String) :=
  ⟨rfl, by decide⟩

/-- The int64 wrap is the identity on the signed 64-bit range. -/
theorem wrapInt64_eq_self (i : Int) (h1 : -9223372036854775808 ≤ i)
    (h2 : i ≤ 9223372036854775807) : wrapInt64 i = i := by
  unfold wrapInt64
  omega

/-- C6: `GetPayReqResponse` calls the invoice creator exactly once, with
`amountMsats` the `int64` product `amount * conversionRate` — equal to the
mathematical product whenever that fits in `int64`, as in the claim's
example — and the metadata string
`metadata ++ "{" ++ json(payerData) ++ "}"`; on success the response wraps
the creator's encoded invoice with an empty route list and
`paymentInfo.multiplier` equal to the conversion rate. -/
theorem C6_payreq_response (query : PayRequest)
    (invoiceCreator : String → Option (List Nat) → Int → String → Int → Except String Invoice)
    (nodeId : String) (seed : Option (List Nat)) (metadata currencyCode : String)
    (conversionRate expirySecs : Int) (utxos : List String) (cb : String) :
    (GetPayReqResponse query invoiceCreator nodeId seed metadata currencyCode
        conversionRate expirySecs utxos cb).2
      = [{ nodeId, nodeMasterSeed := seed,
           amountMsats := int64Mul query.amount conversionRate,
           metadata := metadata ++ "\x7b" ++ jsonMarshalPayerData query.payerData ++ "\x7d",
           expirySecs }]
    ∧ (-9223372036854775808 ≤ query.amount * conversionRate →
        query.amount * conversionRate ≤ 9223372036854775807 →
        int64Mul query.amount conversionRate = query.amount * conversionRate)
    ∧ ∀ inv, invoiceCreator nodeId seed (int64Mul query.amount conversionRate)
          (metadata ++ "\x7b" ++ jsonMarshalPayerData query.payerData ++ "\x7d")
          expirySecs = .ok inv →
        (GetPayReqResponse query invoiceCreator nodeId seed metadata currencyCode
            conversionRate expirySecs utxos cb).1
          = .ok { encodedInvoice := inv.encodedPaymentRequest,
                  routes := [],
                  compliance := { utxos, utxoCallback := cb },
                  paymentInfo := { currencyCode, multiplier := conversionRate } } := by
  refine ⟨?_, ?_, ?_⟩
  · unfold GetPayReqResponse
    cases hcr : invoiceCreator nodeId seed (int64Mul query.amount conversionRate)
        (metadata ++ "\x7b" ++ jsonMarshalPayerData query.payerData ++ "\x7d")
        expirySecs with
    | error e => simp only [hcr]
    | ok inv => simp only [hcr]
  · intro h1 h2
    exact wrapInt64_eq_self _ h1 h2
  · intro inv hcr
    unfold GetPayReqResponse
    simp only [hcr]

/-- C6 witness: at `amount = 1000`, `conversionRate = 1000` the single
creator call carries `amountMsats = 1000000` (the in-range product), and the
response multiplier is exactly 1000. -/
theorem C6_witness :
    (GetPayReqResponse c6Query c6Creator "node1" none "meta" "USD" 1000 600 [] "cb").2
      = [{ nodeId := "node1", nodeMasterSeed := none, amountMsats := 1000000,
           metadata := "meta" ++ "\x7b" ++ jsonMarshalPayerData c6PayerData ++ "\x7d",
           expirySecs := 600 }]
    ∧ int64Mul 1000 1000 = 1000000
    ∧ (GetPayReqResponse c6Query c6Creator "node1" none "meta" "USD" 1000 600 [] "cb").1
      = .ok { encodedInvoice := "lnbc1000", routes := [],
              compliance := { utxos := [], utxoCallback := "cb" },
              paymentInfo := { currencyCode := "USD", multiplier := 1000 } } :=
  ⟨(C6_payreq_response c6Query c6Creator "node1" none "meta" "USD" 1000 600 [] "cb").1,
   (C6_payreq_response c6Query c6Creator "node1" none "meta" "USD" 1000 600 [] "cb").2.1
     (by decide) (by decide),
   (C6_payreq_response c6Query c6Creator "node1" none "meta" "USD" 1000 600 [] "cb").2.2
     { encodedPaymentRequest := "lnbc1000" } rfl⟩

theorem cacheGet_cachePut_same (c : PubKeyCache) (domain : String) (pk : PubKeyResponse) :
    cacheGet (cachePut c domain pk) domain = some pk := by
  simp [cachePut, cacheGet]

/-- C7: a cache hit returns the entry unchanged with no fetch and no cache
write; a cache miss with a 200 response and a well-formed body performs
exactly one fetch of the scheme-correct well-known URL and one cache write,
and an immediately following call for the same domain is a hit with zero
fetches; a non-200 status yields an error. -/
theorem C7_fetch_cache_behaviour (vaspDomain : String) (cache : PubKeyCache)
    (httpGet : String → Except String (Nat × String))
    (jsonDecodePubKey : String → Except String PubKeyResponse) :
    (∀ pk, cacheGet cache vaspDomain = some pk →
      FetchPublicKeyForVasp vaspDomain cache httpGet jsonDecodePubKey
        = (.ok pk, cache, []))
    ∧ (∀ body pk, cacheGet cache vaspDomain = none →
        httpGet (fetchUrlForVasp vaspDomain) = .ok (200, body) →
        jsonDecodePubKey body = .ok pk →
        FetchPublicKeyForVasp vaspDomain cache httpGet jsonDecodePubKey
          = (.ok pk, cachePut cache vaspDomain pk, [fetchUrlForVasp vaspDomain])
        ∧ FetchPublicKeyForVasp vaspDomain (cachePut cache vaspDomain pk)
            httpGet jsonDecodePubKey
          = (.ok pk, cachePut cache vaspDomain pk, []))
    ∧ (∀ status body, cacheGet cache vaspDomain = none →
        httpGet (fetchUrlForVasp vaspDomain) = .ok (status, body) → status ≠ 200 →
        FetchPublicKeyForVasp vaspDomain cache httpGet jsonDecodePubKey
          = (.error "invalid response from VASP", cache, [fetchUrlForVasp vaspDomain]))
    ∧ (strStartsWith vaspDomain "localhost:" = true →
        fetchUrlForVasp vaspDomain = "http://" ++ vaspDomain ++ "/.well-known/lnurlpubkey")
    ∧ (strStartsWith vaspDomain "localhost:" = false →
        fetchUrlForVasp vaspDomain = "https://" ++ vaspDomain ++ "/.well-known/lnurlpubkey") := by
  refine ⟨?_, ?_, ?_, ?_, ?_⟩
  · intro pk h
    unfold FetchPublicKeyForVasp
    simp only [h]
  · intro body pk hmiss hget hdec
    constructor
    · unfold FetchPublicKeyForVasp
      simp only [hmiss, hget, hdec]
      rw [if_neg (by simp)]
    · unfold FetchPublicKeyForVasp
      simp only [cacheGet_cachePut_same]
  · intro status body hmiss hget hstatus
    unfold FetchPublicKeyForVasp
    simp only [hmiss, hget]
    rw [if_pos hstatus]
  · intro h
    unfold fetchUrlForVasp
    rw [if_pos h]
  · intro h
    unfold fetchUrlForVasp
    rw [if_neg (by simp [h])]

/-- C7 witness: hit, miss-then-fetch-then-hit, scheme selection and non-200
failure at concrete values. -/
theorem C7_witness :
    (FetchPublicKeyForVasp "vasp1.com" []
        (fun _ => .ok (200, "body1"))
        (fun b => if b = "body1" then
            .ok { signingPubKey := "02aa", encryptionPubKey := "02bb" }
          else .error "json")
      = (.ok { signingPubKey := "02aa", encryptionPubKey := "02bb" },
         cachePut [] "vasp1.com" { signingPubKey := "02aa", encryptionPubKey := "02bb" },
         [fetchUrlForVasp "vasp1.com"])
      ∧ FetchPublicKeyForVasp "vasp1.com"
          (cachePut [] "vasp1.com" { signingPubKey := "02aa", encryptionPubKey := "02bb" })
          (fun _ => .ok (200, "body1"))
          (fun b => if b = "body1" then
              .ok { signingPubKey := "02aa", encryptionPubKey := "02bb" }
            else .error "json")
        = (.ok { signingPubKey := "02aa", encryptionPubKey := "02bb" },
           cachePut [] "vasp1.com" { signingPubKey := "02aa", encryptionPubKey := "02bb" },
           []))
    ∧ fetchUrlForVasp "localhost:8080"
        = "http://" ++ "localhost:8080" ++ "/.well-known/lnurlpubkey"
    ∧ fetchUrlForVasp "vasp1.com"
        = "https://" ++ "vasp1.com" ++ "/.well-known/lnurlpubkey"
    ∧ FetchPublicKeyForVasp "vasp2.com" []
        (fun _ => .ok (404, "gone")) (fun _ => .error "json")
      = (.error "invalid response from VASP", [], [fetchUrlForVasp "vasp2.com"]) :=
  ⟨(C7_fetch_cache_behaviour "vasp1.com" []
      (fun _ => .ok (200, "body1"))
      (fun b => if b = "body1" then
          .ok { signingPubKey := "02aa", encryptionPubKey := "02bb" }
        else .error "json")).2.1 "body1"
      { signingPubKey := "02aa", encryptionPubKey := "02bb" } rfl rfl rfl,
   (C7_fetch_cache_behaviour "localhost:8080" []
      (fun _ => .ok (200, "x")) (fun _ => .error "json")).2.2.2.1 rfl,
   (C7_fetch_cache_behaviour "vasp1.com" []
      (fun _ => .ok (200, "x")) (fun _ => .error "json")).2.2.2.2 rfl,
   (C7_fetch_cache_behaviour "vasp2.com" []
      (fun _ => .ok (404, "gone")) (fun _ => .error "json")).2.2.1 404 "gone"
      rfl rfl (by decide)⟩

/-- C9: the cache write happens only after a 200 response whose body decodes
successfully; a transport error, a non-200 status, or a JSON decode error
returns an error and leaves the cache exactly as it was. -/
theorem C9_fetch_error_atomicity (vaspDomain : String) (cache : PubKeyCache)
    (httpGet : String → Except String (Nat × String))
    (jsonDecodePubKey : String → Except String PubKeyResponse)
    (hmiss : cacheGet cache vaspDomain = none) :
    (∀ e, httpGet (fetchUrlForVasp vaspDomain) = .error e →
      FetchPublicKeyForVasp vaspDomain cache httpGet jsonDecodePubKey
        = (.error e, cache, [fetchUrlForVasp vaspDomain]))
    ∧ (∀ status body, httpGet (fetchUrlForVasp vaspDomain) = .ok (status, body) →
        status ≠ 200 →
        FetchPublicKeyForVasp vaspDomain cache httpGet jsonDecodePubKey
          = (.error "invalid response from VASP", cache, [fetchUrlForVasp vaspDomain]))
    ∧ (∀ body e, httpGet (fetchUrlForVasp vaspDomain) = .ok (200, body) →
        jsonDecodePubKey body = .error e →
        FetchPublicKeyForVasp vaspDomain cache httpGet jsonDecodePubKey
          = (.error e, cache, [fetchUrlForVasp vaspDomain])) := by
  refine ⟨?_, ?_, ?_⟩
  · intro e hget
    unfold FetchPublicKeyForVasp
    simp only [hmiss, hget]
  · intro status body hget hstatus
    unfold FetchPublicKeyForVasp
    simp only [hmiss, hget]
    rw [if_pos hstatus]
  · intro body e hget hdec
    unfold FetchPublicKeyForVasp
    simp only [hmiss, hget, hdec]
    rw [if_neg (by simp)]

/-- C9 witness: the three failure shapes at concrete inputs, each leaving
the (empty) cache unchanged. -/
theorem C9_witness :
    (FetchPublicKeyForVasp "vasp3.com" [] (fun _ => .error "dial tcp: timeout")
        (fun _ => .error "json")
      = (.error "dial tcp: timeout", [], [fetchUrlForVasp "vasp3.com"]))
    ∧ (FetchPublicKeyForVasp "vasp3.com" [] (fun _ => .ok (500, "oops"))
        (fun _ => .error "json")
      = (.error "invalid response from VASP", [], [fetchUrlForVasp "vasp3.com"]))
    ∧ (FetchPublicKeyForVasp "vasp3.com" [] (fun _ => .ok (200, "not json"))
        (fun _ => .error "invalid character")
      = (.error "invalid character", [], [fetchUrlForVasp "vasp3.com"])) :=
  ⟨(C9_fetch_error_atomicity "vasp3.com" [] (fun _ => .error "dial tcp: timeout")
      (fun _ => .error "json") rfl).1 "dial tcp: timeout" rfl,
   (C9_fetch_error_atomicity "vasp3.com" [] (fun _ => .ok (500, "oops"))
      (fun _ => .error "json") rfl).2.1 500 "oops" rfl (by decide),
   (C9_fetch_error_atomicity "vasp3.com" [] (fun _ => .ok (200, "not json"))
      (fun _ => .error "invalid character") rfl).2.2 "not json" "invalid character"
      rfl rfl⟩

end UmaSpec

